import Mathlib

/-!
Verification of the pho tree-walking engine (a recursive crawler for a
photo-gallery web server) against its natural-language specification.

The Go source is shallowly embedded: pure helpers become Lean functions,
the effectful tree walk becomes a fuel-indexed function that returns the
trace of its observable events (HTTP fetches, visitor invocations, log
lines) together with its result, and the dynamically-typed Go error values
become an explicit inductive type that records the wrapping structure the
code builds (the leafError wrapper and the URL/status wrap added by
fmt.Errorf).
-/

namespace Pho

/-- One attribute of an HTML token (html.Attribute: Key and Val). -/
structure HAttr where
  key : String
  val : String
deriving DecidableEq, Repr

/-- The token stream of golang.org/x/net/html's tokenizer, as consumed by
getNodes: only start tags are inspected (t.Data is the tag name, t.Attr
the attributes); every other token kind (text, end tags, comments,
self-closing tags) is ignored, so they are collapsed into `other`. The
tokenizer never fails on malformed markup; it ends with io.EOF, modelled
by the end of the list. -/
inductive HToken where
  | startTag (data : String) (attrs : List HAttr)
  | other
deriving DecidableEq, Repr

/-- Go error values as built by this program. `msg` models a plain error
from fmt.Errorf or a visitor; `noUrl` models the error
fmt.Errorf("No url for %v", t) produced by getNodes for an anchor token
with no href attribute; `leaf` models the *leafError wrapper; `wrap`
models fmt.Errorf("%v %v: %v", resp.Request.URL, resp.Status, err), which
produces a fresh error value that is NOT a *leafError. -/
inductive GoErr where
  | msg (s : String) : GoErr
  | noUrl (t : HToken) : GoErr
  | leaf (inner : GoErr) : GoErr
  | wrap (url status : String) (inner : GoErr) : GoErr
deriving DecidableEq, Repr

/-- Go run-time type assertion err.(*leafError): true exactly when the
error value is the *leafError wrapper itself (wrapping it with fmt.Errorf
loses the type). -/
def isLeafError : GoErr → Bool
  | GoErr.leaf _ => true
  | _ => false

/-- getHref from the source: iterates over all attributes, setting
(ok, href) whenever the key is "href"; the last href attribute wins and
ok stays false only when no href attribute is present at all. -/
def getHref (attrs : List HAttr) : Bool × String :=
  attrs.foldl (fun acc a => if a.key = "href" then (true, a.val) else acc) (false, "")

/-- Boolean test that `s` is an initial run of `l` (character lists). -/
def listPre : List Char → List Char → Bool
  | [], _ => true
  | _ :: _, [] => false
  | a :: as, b :: bs => a == b && listPre as bs

/-- Boolean test that `sub` occurs contiguously inside `l`. -/
def listInf (sub : List Char) : List Char → Bool
  | [] => listPre sub []
  | c :: rest => listPre sub (c :: rest) || listInf sub rest

/-- strings.Contains(s, sub) from the Go standard library: sub occurs as a
contiguous substring of s (the empty string is contained in everything). -/
def goContains (s sub : String) : Bool :=
  listInf sub.toList s.toList

/-- strings.Split(p, "/") restricted to the single-character separator:
splits a character list at every '/'. -/
def splitSlash : List Char → List (List Char)
  | [] => [[]]
  | c :: cs =>
    if c = '/' then [] :: splitSlash cs
    else
      match splitSlash cs with
      | [] => [[c]]
      | g :: gs => (c :: g) :: gs

/-- Join components with '/' between them. -/
def joinSlash : List (List Char) → List Char
  | [] => []
  | [g] => g
  | g :: gs => g ++ '/' :: joinSlash gs

/-- The component-processing core of Go's path.Clean: empty and "."
components are dropped, ".." pops the preceding component (kept at the
front of an unrooted path, dropped at the root of a rooted one). The
stack is kept reversed. -/
def cleanComps (rooted : Bool) : List (List Char) → List (List Char) → List (List Char)
  | [], stack => stack.reverse
  | c :: cs, stack =>
    if c = [] ∨ c = ['.'] then cleanComps rooted cs stack
    else if c = ['.', '.'] then
      match stack with
      | [] => if rooted then cleanComps rooted cs [] else cleanComps rooted cs [c]
      | top :: rest =>
        if top = ['.', '.'] then cleanComps rooted cs (c :: top :: rest)
        else cleanComps rooted cs rest
    else cleanComps rooted cs (c :: stack)

/-- Go's path.Clean: applies the four cleaning rules from its
documentation (collapse duplicate slashes, drop "." elements, resolve
".." against the preceding element, drop ".." at the root) and returns
"." for an empty result of an unrooted path and "/" for a rooted one. -/
def goPathClean (p : String) : String :=
  if p = "" then "."
  else
    let cs := p.toList
    let rooted := cs.head? = some '/'
    let out := joinSlash (cleanComps rooted (splitSlash cs) [])
    if rooted then String.mk ('/' :: out)
    else if out = [] then "." else String.mk out

/-- Go's path.Join on two elements: leading empty elements are skipped,
the rest are joined with "/" and the result is cleaned. -/
def goPathJoin (a b : String) : String :=
  if a = "" then (if b = "" then "" else goPathClean b)
  else goPathClean (a ++ "/" ++ b)

/-- Go's path.Dir: everything up to and including the final slash,
cleaned; "." when the path has no slash. -/
def goPathDir (p : String) : String :=
  let r := p.toList.reverse
  goPathClean (String.mk ((r.dropWhile fun c => c ≠ '/').reverse))

/-- Go's path.Base: the last element of the path after trailing slashes
are removed; "." for the empty path, "/" for a path of only slashes. -/
def goPathBase (p : String) : String :=
  if p = "" then "."
  else
    let cs := (p.toList.reverse.dropWhile fun c => c = '/').reverse
    if cs = [] then "/"
    else String.mk ((cs.reverse.takeWhile fun c => c ≠ '/').reverse)

/-- getContentType from the source: the Content-Type header value split on
";" keeping the first part, i.e. the prefix before the first ';'. The
header lookup resp.Header.Get("Content-Type") is modelled by passing the
header value itself. -/
def getContentType (header : String) : String :=
  String.mk (header.toList.takeWhile fun c => c ≠ ';')

/-- Loop body of getNodes from the source, with the accumulated nodes
made explicit. For each start tag named "a": read the href via getHref;
when it is absent set err to the "No url" error; independently of that,
append the href to the nodes unless strings.Contains(remotePath, href)
holds; the loop continues only while err is nil. End of the token list is
the tokenizer's io.EOF, which getNodes converts to a nil error. -/
def getNodesAux (rp : String) : List HToken → List String → List String × Option GoErr
  | [], acc => (acc, none)
  | HToken.other :: ts, acc => getNodesAux rp ts acc
  | HToken.startTag d attrs :: ts, acc =>
    if d = "a" then
      if (getHref attrs).1 then
        getNodesAux rp ts
          (if goContains rp (getHref attrs).2 then acc else acc ++ [(getHref attrs).2])
      else
        ((if goContains rp (getHref attrs).2 then acc else acc ++ [(getHref attrs).2]),
          some (GoErr.noUrl (HToken.startTag d attrs)))
    else getNodesAux rp ts acc

/-- getNodes from the source: runs the tokenizer loop over the page body
(modelled as its token stream) with an empty initial node list. -/
def getNodes (rp : String) (toks : List HToken) : List String × Option GoErr :=
  getNodesAux rp toks []

/-- Declarative list of the href values of the anchor start tags of a
token stream, in document order, used to state what extraction yields. -/
def anchorHrefs : List HToken → List String
  | [] => []
  | HToken.other :: ts => anchorHrefs ts
  | HToken.startTag d attrs :: ts =>
    if d = "a" then (getHref attrs).2 :: anchorHrefs ts else anchorHrefs ts

/-- Decidable statement that every anchor start tag of a token stream
carries an href attribute. -/
def allAnchorsHaveHref : List HToken → Bool := fun toks =>
  toks.all fun t =>
    match t with
    | HToken.startTag d attrs => if d = "a" then (getHref attrs).1 else true
    | HToken.other => true

/-- An HTTP response as the walker sees it: the URL of the request that
produced it (resp.Request.URL), the status line (resp.Status), the raw
Content-Type header, and the tokenizer's view of the body. -/
structure Resp where
  url : String
  status : String
  contentType : String
  tokens : List HToken
deriving DecidableEq, Repr

/-- The walker's collaborators: the Fetcher (get), which either produces
a response or fails (none models get returning a non-nil error, in which
case the Go response pointer is nil), and the two injected visitors. -/
structure Env where
  fetch : String → Option Resp
  onIndex : String → String → Nat → Option GoErr
  onLeaf : Resp → String → String → Option GoErr

/-- Observable events of a walk, in the order they happen: an HTTP fetch
of a composed URL, an onIndex visitor call, an onLeaf visitor call, and a
log line emitted by handleWalkError for a contained leaf error. -/
inductive Ev where
  | fetched (url : String)
  | indexCall (base node : String) (depth : Nat)
  | leafCall (base : String)
  | logged (e : GoErr)
deriving DecidableEq, Repr

/-- Result of one walkPath call: normal return of nil or of an error, a
run-time nil-pointer panic (resp.Request.URL with a nil resp), or fuel
exhaustion of the embedding (the Go recursion has no own bound). -/
inductive WalkRes where
  | ok
  | fail (e : GoErr)
  | nilPanic
  | fuelOut
deriving DecidableEq, Repr

/-- Result of the sibling loop of the text/html branch: it either runs to
its end or to a break (both leave the shadowed err dead), or aborts the
process/embedding because a nested call panicked or ran out of fuel. -/
inductive LoopOut where
  | finished
  | panicked
  | outOfFuel
deriving DecidableEq, Repr

/-- The error component a parent observes from a child walkPath return. -/
def resErr : WalkRes → Option GoErr
  | WalkRes.fail e => some e
  | _ => none

/-- handleWalkError from the source: a nil error passes through; a
*leafError is logged (the event is returned) and neutralized to nil; any
other error is returned unchanged. -/
def handleWalkError : Option GoErr → List Ev × Option GoErr
  | none => ([], none)
  | some e => if isLeafError e then ([Ev.logged e], none) else ([], some e)

/-- remotePath := path.Join("/var/albums", base) from walkPath. -/
def remotePathOf (base : String) : String :=
  goPathJoin "/var/albums" base

/-- The for-loop of walkPath's text/html branch over the discovered
links. For each node: call onIndex; on its failure break (the error is
assigned to the err variable that the case clause shadows, so nothing
escapes the loop). Otherwise, when recursing, walk the joined child path
and pass its result through handleWalkError; break on a non-neutralized
error, continue otherwise. A panic or fuel exhaustion inside the child
aborts everything. -/
def walkLoop (onIdx : String → String → Nat → Option GoErr)
    (walkChild : String → List Ev × WalkRes)
    (base : String) (depth : Nat) (recurse : Bool) :
    List String → List Ev × LoopOut
  | [] => ([], LoopOut.finished)
  | node :: rest =>
    match onIdx base node depth with
    | some _ => ([Ev.indexCall base node depth], LoopOut.finished)
    | none =>
      if recurse then
        match walkChild (goPathJoin base node) with
        | (cEvs, WalkRes.nilPanic) => (Ev.indexCall base node depth :: cEvs, LoopOut.panicked)
        | (cEvs, WalkRes.fuelOut) => (Ev.indexCall base node depth :: cEvs, LoopOut.outOfFuel)
        | (cEvs, cRes) =>
          match handleWalkError (resErr cRes) with
          | (_, some _) => (Ev.indexCall base node depth :: cEvs, LoopOut.finished)
          | (logEvs, none) =>
            (Ev.indexCall base node depth :: cEvs ++ logEvs
                ++ (walkLoop onIdx walkChild base depth recurse rest).1,
              (walkLoop onIdx walkChild base depth recurse rest).2)
      else
        (Ev.indexCall base node depth
            :: (walkLoop onIdx walkChild base depth recurse rest).1,
          (walkLoop onIdx walkChild base depth recurse rest).2)

/-- walkPath from the source, with a fuel bound on the recursion depth.
The outer err comes from get; in the text/html case the source's
`nodes, err := getNodes(...)` declares a NEW err inside the case clause
(Go's short variable declaration shadows the function-level err there),
so every error of that branch — a getNodes failure, an onIndex failure,
or a propagated child error — dies with the shadowed variable and the
call returns nil. Only the default (leaf) branch and the get error assign
the outer err; a non-nil outer err is then wrapped with
resp.Request.URL and resp.Status, which dereferences a nil resp when get
itself failed. -/
def walkPathF (env : Env) (address : String) :
    Nat → String → Bool → Nat → List Ev × WalkRes
  | 0, _, _, _ => ([], WalkRes.fuelOut)
  | Nat.succ fuel, base, recurse, depth =>
    let remotePath := remotePathOf base
    let url := address ++ remotePath
    match env.fetch url with
    | none => ([Ev.fetched url], WalkRes.nilPanic)
    | some resp =>
      let ct := getContentType resp.contentType
      if ct = "text/html" then
        match getNodes remotePath resp.tokens with
        | (nodes, none) =>
          match walkLoop env.onIndex
              (fun next => walkPathF env address fuel next recurse (depth + 1))
              base depth recurse nodes with
          | (evs, LoopOut.finished) => (Ev.fetched url :: evs, WalkRes.ok)
          | (evs, LoopOut.panicked) => (Ev.fetched url :: evs, WalkRes.nilPanic)
          | (evs, LoopOut.outOfFuel) => (Ev.fetched url :: evs, WalkRes.fuelOut)
        | (_, some _) => ([Ev.fetched url], WalkRes.ok)
      else
        match env.onLeaf resp base ct with
        | none => ([Ev.fetched url, Ev.leafCall base], WalkRes.ok)
        | some e =>
          ([Ev.fetched url, Ev.leafCall base],
            WalkRes.fail (GoErr.wrap resp.url resp.status (GoErr.leaf e)))

/-- The URLs fetched during a walk, in order: the walk's visit order. -/
def fetchedPaths (evs : List Ev) : List String :=
  evs.filterMap fun e => match e with | Ev.fetched u => some u | _ => none

/-- doNothingOnLeaf from the source: always succeeds. -/
def doNothingOnLeaf : Resp → String → String → Option GoErr :=
  fun _ _ _ => none

/-- An anchor start tag carrying a single href attribute. -/
def aTok (h : String) : HToken :=
  HToken.startTag "a" [⟨"href", h⟩]

/-- An index page: a text/html response listing the given hrefs. -/
def htmlResp (url : String) (hrefs : List String) : Resp :=
  ⟨url, "200 OK", "text/html", hrefs.map aTok⟩

/-- A leaf page: an image/jpeg response. -/
def jpegResp (url : String) : Resp :=
  ⟨url, "200 OK", "image/jpeg", []⟩

/-- The specification's synthetic two-level gallery, served at address ""
with the fixed /var/albums prefix: root lists A and B, A lists A1 and A2,
and A1, A2, B are jpeg leaves. -/
def treeFetch : String → Option Resp := fun u =>
  if u = "/var/albums" then some (htmlResp u ["A", "B"])
  else if u = "/var/albums/A" then some (htmlResp u ["A1", "A2"])
  else if u = "/var/albums/A/A1" ∨ u = "/var/albums/A/A2" ∨ u = "/var/albums/B" then
    some (jpegResp u)
  else none

/-- Leaf-containment scenario: the two-level tree with a leaf visitor
that fails on A1 and succeeds elsewhere; the index visitor always
succeeds. -/
def envC1 : Env :=
  ⟨treeFetch, fun _ _ _ => none,
    fun _ b _ => if b = "A/A1" then some (GoErr.msg "read failed") else none⟩

/-- Index-visitor-fatality scenario: the two-level tree, with page A
listing A1, A2, A3 so that a sibling after A2 exists; the index visitor
fails on the link A2 and the leaf visitor always succeeds. -/
def envC2 : Env :=
  ⟨fun u =>
      if u = "/var/albums" then some (htmlResp u ["A", "B"])
      else if u = "/var/albums/A" then some (htmlResp u ["A1", "A2", "A3"])
      else if u = "/var/albums/A/A1" ∨ u = "/var/albums/A/A2"
          ∨ u = "/var/albums/A/A3" ∨ u = "/var/albums/B" then
        some (jpegResp u)
      else none,
    fun _ node _ => if node = "A2" then some (GoErr.msg "bookkeeping failed") else none,
    doNothingOnLeaf⟩

/-- Fully successful walk of the two-level tree (both visitors always
succeed, as in the ls command). -/
def envC6 : Env :=
  ⟨treeFetch, fun _ _ _ => none, doNothingOnLeaf⟩

/-- Malformed-listing scenario: the root page contains an anchor start
tag carrying no href attribute. -/
def envC7 : Env :=
  ⟨fun u =>
      if u = "/var/albums" then
        some ⟨u, "200 OK", "text/html", [HToken.startTag "a" [⟨"class", "x"⟩]]⟩
      else none,
    fun _ _ _ => none, doNothingOnLeaf⟩

/-- Escaped-base scenario: walking base "../../x" composes the server
path "/x" (path.Join cleans the ".." components away), whose listing
contains the href "albums". -/
def envC10 : Env :=
  ⟨fun u =>
      if u = "/x" then some (htmlResp u ["albums"])
      else if u = "/x/albums" then some (jpegResp u)
      else none,
    fun _ _ _ => none, doNothingOnLeaf⟩

/-- InitialInterval of backoff.NewExponentialBackOff, in milliseconds. -/
def initialIntervalMs : Nat := 500

/-- MaxInterval of backoff.NewExponentialBackOff, in milliseconds. -/
def maxIntervalMs : Nat := 60000

/-- MaxElapsedTime of backoff.NewExponentialBackOff, in milliseconds:
the library default is 15 minutes, after which NextBackOff returns Stop
and Retry gives up with the operation's last error. -/
def maxElapsedTimeMs : Nat := 900000

/-- incrementCurrentInterval of the backoff library: once the current
interval reaches MaxInterval/Multiplier (Multiplier is 1.5) it is pinned
at MaxInterval, otherwise it is multiplied by 1.5 (integer milliseconds
here). -/
def incrementCurrentInterval (cur : Nat) : Nat :=
  if maxIntervalMs * 2 / 3 ≤ cur then maxIntervalMs else cur * 3 / 2

/-- Outcome of the retry loop: a response, the last transport error once
the backoff policy stops, or `hung` when the embedding's fuel runs out
(shown unreachable below). -/
inductive RetryOut (E A : Type) where
  | ok (a : A)
  | err (e : E)
  | hung
deriving DecidableEq, Repr

/-- backoff.RetryNotify as called by get, with attempts indexed by `op`:
run the attempt; on success return; otherwise ask NextBackOff, which
returns Stop once the elapsed time exceeds MaxElapsedTime, surfacing the
error, and otherwise sleeps the current interval and grows it. Elapsed
time is modelled as the sum of the sleeps (attempt durations are taken as
zero, which under-approximates the real clock, so the real loop stops no
later); the randomized jitter is modelled at its midpoint, where the
drawn interval equals the current interval exactly. The fuel only bounds
the embedding; 1802 iterations are enough because every sleep is at
least 500 ms. -/
def retryAux {E A : Type} (op : Nat → Except E A) :
    Nat → Nat → Nat → Nat → RetryOut E A
  | 0, _, _, _ => RetryOut.hung
  | Nat.succ f, attempt, interval, elapsed =>
    match op attempt with
    | Except.ok a => RetryOut.ok a
    | Except.error e =>
      if maxElapsedTimeMs < elapsed then RetryOut.err e
      else retryAux op f (attempt + 1) (incrementCurrentInterval interval) (elapsed + interval)

/-- get from the source: an HTTP GET through
backoff.RetryNotify(op, backoff.NewExponentialBackOff(), notify), the
attempts being the successive calls of httpClient.Get. -/
def get {E A : Type} (op : Nat → Except E A) : RetryOut E A :=
  retryAux op 1802 0 initialIntervalMs 0

/-- Result of os.Stat on a local file, as the fetch command reads it:
the file exists, os.IsNotExist holds, or some other stat error. -/
inductive StatOut where
  | found
  | missing
  | failed (e : GoErr)
deriving DecidableEq, Repr

/-- The local filesystem operations the fetch command's leaf visitor
performs, abstracted as oracles keyed by the path they are applied to:
os.Stat, os.MkdirAll, os.Create, and io.Copy of the response body into
the created file. -/
structure LocalFS where
  stat : String → StatOut
  mkdirAll : String → Option GoErr
  create : String → Option GoErr
  copyBody : String → Except GoErr Nat

/-- The fetch command's onLeaf closure from the source: for image/png and
image/jpeg content types it mirrors the node under localPath (skipping a
file that already exists, creating directories and copying the body
otherwise, failing with the first filesystem error); for every other
content type it returns the "Unknown content type" error. The progress
counter and verbose logging are pure log output and are not modelled. -/
def fetchOnLeaf (fs : LocalFS) (localPath : String) (node ct : String) : Option GoErr :=
  if ct = "image/png" ∨ ct = "image/jpeg" then
    let folder := goPathJoin localPath (goPathDir node)
    let localFile := goPathJoin folder (goPathBase node)
    match fs.stat localFile with
    | StatOut.missing =>
      match fs.mkdirAll folder with
      | some e => some e
      | none =>
        match fs.create localFile with
        | some e => some e
        | none =>
          match fs.copyBody localFile with
          | Except.error e => some e
          | Except.ok _ => none
    | StatOut.failed e => some e
    | StatOut.found => none
  else some (GoErr.msg ("Unknown content type " ++ ct ++ ":" ++ node))

theorem listInf_nil_left : ∀ l : List Char, listInf [] l = true
  | [] => rfl
  | _ :: rest => by simp [listInf, listPre]

theorem goContains_empty (s : String) : goContains s "" = true :=
  listInf_nil_left s.toList

theorem allAnchorsHaveHref_mem {toks : List HToken} (h : allAnchorsHaveHref toks = true)
    {d : String} {attrs : List HAttr} (hm : HToken.startTag d attrs ∈ toks) (hd : d = "a") :
    (getHref attrs).1 = true := by
  subst hd
  rw [allAnchorsHaveHref, List.all_eq_true] at h
  simpa using h _ hm

theorem getNodesAux_all_href (rp : String) :
    ∀ (toks : List HToken) (acc : List String),
      (∀ d attrs, HToken.startTag d attrs ∈ toks → d = "a" → (getHref attrs).1 = true) →
      getNodesAux rp toks acc
        = (acc ++ (anchorHrefs toks).filter (fun hf => !goContains rp hf), none) := by
  intro toks
  induction toks with
  | nil => intro acc _; simp [getNodesAux, anchorHrefs]
  | cons t ts ih =>
    intro acc hh
    cases t with
    | other =>
      have ih' := ih acc fun d attrs hm => hh d attrs (List.mem_cons_of_mem _ hm)
      simpa [getNodesAux, anchorHrefs] using ih'
    | startTag d attrs =>
      have ihr := fun acc2 => ih acc2 fun d' attrs' hm => hh d' attrs' (List.mem_cons_of_mem _ hm)
      by_cases hd : d = "a"
      · subst hd
        have hok : (getHref attrs).1 = true := hh _ _ (List.mem_cons_self _ _) rfl
        by_cases hc : goContains rp (getHref attrs).2
        · simp [getNodesAux, anchorHrefs, hok, hc, ihr acc]
        · simp [getNodesAux, anchorHrefs, hok, hc, ihr (acc ++ [(getHref attrs).2]),
            List.append_assoc]
      · simpa [getNodesAux, anchorHrefs, hd] using ihr acc

theorem getNodesAux_mem (rp : String) :
    ∀ (toks : List HToken) (acc : List String) (x : String),
      x ∈ (getNodesAux rp toks acc).1 → x ∈ acc ∨ goContains rp x = false := by
  intro toks
  induction toks with
  | nil => intro acc x hx; exact Or.inl (by simpa [getNodesAux] using hx)
  | cons t ts ih =>
    intro acc x hx
    cases t with
    | other => exact ih acc x (by simpa [getNodesAux] using hx)
    | startTag d attrs =>
      by_cases hd : d = "a"
      · subst hd
        cases hok : (getHref attrs).1 with
        | true =>
          cases hc : goContains rp (getHref attrs).2 with
          | true =>
            simp only [getNodesAux, if_pos rfl, hok, if_true, hc] at hx
            exact ih acc x hx
          | false =>
            simp only [getNodesAux, if_pos rfl, hok, if_true, hc,
              Bool.false_eq_true, if_false] at hx
            rcases ih _ x hx with hmem | hfalse
            · rcases List.mem_append.1 hmem with hacc | hsing
              · exact Or.inl hacc
              · right
                have hx2 : x = (getHref attrs).2 := by simpa using hsing
                rw [hx2]
                exact hc
            · exact Or.inr hfalse
        | false =>
          cases hc : goContains rp (getHref attrs).2 with
          | true =>
            simp only [getNodesAux, if_pos rfl, hok, hc] at hx
            simp at hx
            exact Or.inl hx
          | false =>
            simp only [getNodesAux, if_pos rfl, hok, hc] at hx
            simp at hx
            rcases hx with hacc | hx2
            · exact Or.inl hacc
            · right
              rw [hx2]
              exact hc
      · simp only [getNodesAux, if_neg hd] at hx
        exact ih acc x hx

/-- C5: for every current remote path and every HTML body whose anchors
all carry an href, extraction yields exactly those hrefs that are not
substrings (strings.Contains) of the current remote path string, in
document order of the anchors, and no error. -/
theorem c5_extraction_filters_hrefs (rp : String) (toks : List HToken)
    (h : allAnchorsHaveHref toks = true) :
    getNodes rp toks = ((anchorHrefs toks).filter (fun hf => !goContains rp hf), none) := by
  have := getNodesAux_all_href rp toks []
    (fun d attrs hm hd => allAnchorsHaveHref_mem h hm hd)
  simpa [getNodes] using this

/-- Witness for C5 at the self-link instance: on the page /var/albums
whose listing links albums, c and d, the self-referential href albums is
a substring of the current path and is dropped; the others are yielded in
order. -/
theorem c5_extraction_filters_hrefs_witness :
    getNodes "/var/albums" [aTok "albums", aTok "c", aTok "d"] = (["c", "d"], none) := by
  have h := c5_extraction_filters_hrefs "/var/albums" [aTok "albums", aTok "c", aTok "d"]
    (by decide)
  exact h.trans (by decide)

/-- C9: an anchor whose href attribute is present but empty is silently
dropped by extraction — the empty string is a substring of every path —
and no missing-href error is raised: the loop proceeds exactly as if the
anchor were absent. -/
theorem c9_empty_href_dropped (rp : String) (attrs : List HAttr)
    (rest : List HToken) (acc : List String)
    (h : getHref attrs = (true, "")) :
    getNodesAux rp (HToken.startTag "a" attrs :: rest) acc = getNodesAux rp rest acc := by
  simp [getNodesAux, h, goContains_empty]

/-- Witness for C9: a concrete page with an empty-href anchor followed by
an ordinary link is processed exactly like the page without the
empty-href anchor. -/
theorem c9_empty_href_dropped_witness :
    getNodesAux "/p" [HToken.startTag "a" [⟨"href", ""⟩], aTok "q"] []
      = getNodesAux "/p" [aTok "q"] [] :=
  c9_empty_href_dropped "/p" [⟨"href", ""⟩] [aTok "q"] [] (by decide)

/-- C10 (amended): the substring exclusion is applied to the fully
composed server path path.Join("/var/albums", base): any href that is a
substring of that composed path is never yielded at that node. The
composed path does not always retain "/var/albums" itself — ".."
components of the base are cleaned away by path.Join — so substrings of
"/var/albums" are excluded only while the composed path still contains
them. -/
theorem c10_composed_path_exclusion (base href : String) (toks : List HToken)
    (h : goContains (remotePathOf base) href = true) :
    href ∉ (getNodes (remotePathOf base) toks).1 := by
  intro hm
  have hm' : href ∈ (getNodesAux (remotePathOf base) toks []).1 := hm
  rcases getNodesAux_mem (remotePathOf base) toks [] href hm' with h1 | h2
  · simp at h1
  · rw [h] at h2
    cases h2

/-- Witness for C10's amended statement: "var" is a substring of the
composed path /var/albums/a, so it is excluded from that page's nodes. -/
theorem c10_composed_path_exclusion_witness :
    "var" ∉ (getNodes (remotePathOf "a") [aTok "var", aTok "c"]).1 :=
  c10_composed_path_exclusion "a" "var" [aTok "var", aTok "c"] (by decide)

/-- Counterexample to C10 as stated: for the base path "../../x" the
composed server path is "/x", and the href "albums" — a substring of
"/var/albums" — is NOT excluded: the walk passes it to the index visitor. -/
theorem c10_escaped_base_not_excluded :
    goContains "/var/albums" "albums" = true ∧
      Ev.indexCall "../../x" "albums" 0 ∈ (walkPathF envC10 "" 3 "../../x" true 0).1 := by
  decide

theorem incrementCurrentInterval_ge {i : Nat} (h : 500 ≤ i) :
    500 ≤ incrementCurrentInterval i := by
  unfold incrementCurrentInterval
  split
  · decide
  · calc 500 ≤ i := h
      _ = i * 2 / 2 := by omega
      _ ≤ i * 3 / 2 := Nat.div_le_div_right (by omega)

theorem retryAux_all_fail {A : Type} (op : Nat → Except String A) (e : String)
    (hop : ∀ n, op n = Except.error e) :
    ∀ (f a i el : Nat), 500 ≤ i → maxElapsedTimeMs < el + 500 * f →
      retryAux op (f + 1) a i el = RetryOut.err e := by
  intro f
  induction f with
  | zero =>
    intro a i el _ hel
    have h1 : maxElapsedTimeMs < el := by simpa using hel
    simp [retryAux, hop a, h1]
  | succ f ih =>
    intro a i el hi hel
    by_cases hstop : maxElapsedTimeMs < el
    · simp [retryAux, hop a, hstop]
    · have hr : retryAux op (f + 1 + 1) a i el
          = retryAux op (f + 1) (a + 1) (incrementCurrentInterval i) (el + i) := by
        simp [retryAux, hop a, hstop]
      rw [hr]
      exact ih (a + 1) _ (el + i) (incrementCurrentInterval_ge hi) (by omega)

theorem retryAux_ne_hung {E A : Type} (op : Nat → Except E A) :
    ∀ (f a i el : Nat), 500 ≤ i → maxElapsedTimeMs < el + 500 * f →
      retryAux op (f + 1) a i el ≠ RetryOut.hung := by
  intro f
  induction f with
  | zero =>
    intro a i el _ hel
    have h1 : maxElapsedTimeMs < el := by simpa using hel
    cases hoa : op a <;> simp [retryAux, hoa, h1]
  | succ f ih =>
    intro a i el hi hel
    cases hoa : op a with
    | ok a' => simp [retryAux, hoa]
    | error e =>
      by_cases hstop : maxElapsedTimeMs < el
      · simp [retryAux, hoa, hstop]
      · have hr : retryAux op (f + 1 + 1) a i el
            = retryAux op (f + 1) (a + 1) (incrementCurrentInterval i) (el + i) := by
          simp [retryAux, hoa, hstop]
        rw [hr]
        exact ih (a + 1) _ (el + i) (incrementCurrentInterval_ge hi) (by omega)

/-- C3 (amended): the Fetcher's retry loop is NOT unbounded — the default
exponential backoff stops once the elapsed time exceeds its 15-minute
MaxElapsedTime. When every attempt fails with a transport error, get
returns that error to its caller; and the loop always terminates with a
response or an error (it never runs forever within the modelled
15-minute budget plus one attempt). -/
theorem c3_retry_bounded :
    (∀ (op : Nat → Except String Unit) (e : String),
        (∀ n, op n = Except.error e) → get op = RetryOut.err e)
    ∧ ∀ (op : Nat → Except String Unit), get op ≠ RetryOut.hung := by
  constructor
  · intro op e hop
    exact retryAux_all_fail op e hop 1801 0 initialIntervalMs 0 (by decide) (by decide)
  · intro op
    exact retryAux_ne_hung op 1801 0 initialIntervalMs 0 (by decide) (by decide)

/-- Counterexample to C3 as stated: a persistent transport failure does
surface to the Fetcher's caller — after the backoff's 15-minute elapsed
budget the retry loop gives up and returns the transport error. -/
theorem c3_transport_error_surfaces :
    get (fun _ => (Except.error "connection refused" : Except String Unit))
      = RetryOut.err "connection refused" := by
  decide

/-- Witness for C3's amended statement at a concrete always-failing
operation. -/
theorem c3_retry_bounded_witness :
    get (fun _ => (Except.error "timeout" : Except String Unit)) = RetryOut.err "timeout" :=
  c3_retry_bounded.1 (fun _ => Except.error "timeout") "timeout" (fun _ => rfl)

/-- C1 evaluated at its failing input (the code contradicts the claim):
in the two-level tree where leaf A1's visitor fails, the parent call does
NOT log the leaf error and does NOT continue with the sibling A2 — the
child's error was wrapped with URL and status before returning, so the
*leafError type check of handleWalkError fails and the sibling loop
breaks; A2 is never fetched and no logged event occurs. The overall walk
result is nevertheless success, because the text/html branch's shadowed
err variable swallows the error at page A. -/
theorem c1_leaf_failure_breaks_siblings :
    walkPathF envC1 "" 5 "" true 0
        = ([Ev.fetched "/var/albums", Ev.indexCall "" "A" 0, Ev.fetched "/var/albums/A",
            Ev.indexCall "A" "A1" 1, Ev.fetched "/var/albums/A/A1", Ev.leafCall "A/A1",
            Ev.indexCall "" "B" 0, Ev.fetched "/var/albums/B", Ev.leafCall "B"],
          WalkRes.ok)
      ∧ Ev.indexCall "A" "A2" 1 ∉ (walkPathF envC1 "" 5 "" true 0).1
      ∧ Ev.logged (GoErr.wrap "/var/albums/A/A1" "200 OK" (GoErr.leaf (GoErr.msg "read failed")))
          ∉ (walkPathF envC1 "" 5 "" true 0).1 := by
  decide

/-- C2 evaluated at its failing input (the code contradicts the claim):
in the tree where the index visitor fails for link A2 of page A, the loop
over page A does break (the later sibling A3 is neither visited nor
recursed into), but the error does not propagate: the text/html branch's
shadowed err dies with the case clause, page A's walk returns nil, the
root continues and visits B, and the overall result is success instead of
the index-visitor error. -/
theorem c2_index_error_swallowed :
    walkPathF envC2 "" 5 "" true 0
        = ([Ev.fetched "/var/albums", Ev.indexCall "" "A" 0, Ev.fetched "/var/albums/A",
            Ev.indexCall "A" "A1" 1, Ev.fetched "/var/albums/A/A1", Ev.leafCall "A/A1",
            Ev.indexCall "A" "A2" 1,
            Ev.indexCall "" "B" 0, Ev.fetched "/var/albums/B", Ev.leafCall "B"],
          WalkRes.ok)
      ∧ Ev.indexCall "A" "A3" 1 ∉ (walkPathF envC2 "" 5 "" true 0).1 := by
  decide

/-- C4 evaluated at its failing input (the code contradicts the claim):
when the Fetcher fails, no content-type dispatch, extraction or visitor
call happens — but instead of returning the wrapped fatal error, walkPath
dereferences the nil response while composing the
fmt.Errorf("%v %v: %v", resp.Request.URL, resp.Status, err) wrap, so the
process panics. -/
theorem c4_fetch_failure_panics :
    walkPathF ⟨fun _ => none, fun _ _ _ => none, doNothingOnLeaf⟩ "http://h" 1 "" false 0
      = ([Ev.fetched "http://h/var/albums"], WalkRes.nilPanic) := by
  decide

/-- C6: children of an index page are visited in document order and a
child's entire subtree — the whole event block of its recursive call — is
emitted before any event of the next sibling; on the specification's
two-level tree (root lists A and B, A lists A1 and A2), a fully
successful recursive walk fetches the nodes in the order root, A, A1,
A2, B. -/
theorem c6_depth_first_order :
    (∀ (onIdx : String → String → Nat → Option GoErr)
        (walkChild : String → List Ev × WalkRes) (base : String) (depth : Nat)
        (node : String) (rest : List String) (evs : List Ev),
        onIdx base node depth = none →
        walkChild (goPathJoin base node) = (evs, WalkRes.ok) →
        walkLoop onIdx walkChild base depth true (node :: rest)
          = (Ev.indexCall base node depth :: evs
              ++ (walkLoop onIdx walkChild base depth true rest).1,
            (walkLoop onIdx walkChild base depth true rest).2))
    ∧ fetchedPaths (walkPathF envC6 "" 5 "" true 0).1
        = ["/var/albums", "/var/albums/A", "/var/albums/A/A1",
            "/var/albums/A/A2", "/var/albums/B"]
    ∧ (walkPathF envC6 "" 5 "" true 0).2 = WalkRes.ok := by
  refine ⟨?_, by decide, by decide⟩
  intro onIdx walkChild base depth node rest evs h1 h2
  simp [walkLoop, h1, h2, handleWalkError, resErr]

/-- Witness for C6's quantified part at a concrete one-element sibling
list with an always-succeeding index visitor and child walk. -/
theorem c6_depth_first_order_witness :
    walkLoop (fun _ _ _ => none) (fun _ => ([], WalkRes.ok)) "b" 0 true ["n"]
      = (Ev.indexCall "b" "n" 0 :: []
          ++ (walkLoop (fun _ _ _ => none) (fun _ => ([], WalkRes.ok)) "b" 0 true []).1,
        (walkLoop (fun _ _ _ => none) (fun _ => ([], WalkRes.ok)) "b" 0 true []).2) :=
  c6_depth_first_order.1 _ _ "b" 0 "n" [] [] rfl rfl

/-- C7 evaluated at its failing input: for a listing with an anchor start
tag that has no href attribute, getNodes does return a fatal error that
is not leaf-classified — but the walk of the malformed page does NOT
abort with that error: the error is assigned to the err variable that the
text/html case clause shadows, so the page's walkPath returns nil. -/
theorem c7_malformed_listing_error_swallowed :
    getNodes "/var/albums" [HToken.startTag "a" [⟨"class", "x"⟩]]
        = ([], some (GoErr.noUrl (HToken.startTag "a" [⟨"class", "x"⟩])))
      ∧ isLeafError (GoErr.noUrl (HToken.startTag "a" [⟨"class", "x"⟩])) = false
      ∧ walkPathF envC7 "" 2 "" true 0 = ([Ev.fetched "/var/albums"], WalkRes.ok) := by
  decide

/-- C8: for every walk whose root fetch returns a content type that is
neither text/html nor one the fetch command's leaf visitor recognizes
(image/jpeg, image/png), the visitor's unrecognized-content-type error is
returned — wrapped as a leaf error and then with the response's URL and
status — as the walk's result to the command; it is not swallowed, there
being no enclosing recursive call to contain it. -/
theorem c8_top_level_leaf_error_surfaces
    (fs : LocalFS) (localPath address base : String) (fuel depth : Nat) (recurse : Bool)
    (onIdx : String → String → Nat → Option GoErr) (r : Resp)
    (h1 : getContentType r.contentType ≠ "text/html")
    (h2 : getContentType r.contentType ≠ "image/jpeg")
    (h3 : getContentType r.contentType ≠ "image/png") :
    walkPathF ⟨fun _ => some r, onIdx, fun _ node ct => fetchOnLeaf fs localPath node ct⟩
        address (fuel + 1) base recurse depth
      = ([Ev.fetched (address ++ remotePathOf base), Ev.leafCall base],
        WalkRes.fail (GoErr.wrap r.url r.status
          (GoErr.leaf (GoErr.msg
            ("Unknown content type " ++ getContentType r.contentType ++ ":" ++ base))))) := by
  simp [walkPathF, fetchOnLeaf, h1, h2, h3]

/-- Witness for C8: a single non-recursive fetch of a leaf path whose
content type is application/pdf surfaces the unknown-content-type error
as the walk's terminal result. -/
theorem c8_top_level_leaf_error_surfaces_witness :
    walkPathF
        ⟨fun _ => some ⟨"http://h/var/albums/p", "200 OK", "application/pdf; charset=x", []⟩,
          fun _ _ _ => none,
          fun _ node ct =>
            fetchOnLeaf ⟨fun _ => StatOut.found, fun _ => none, fun _ => none,
              fun _ => Except.ok 0⟩ "." node ct⟩
        "" 1 "p" false 0
      = ([Ev.fetched ("" ++ remotePathOf "p"), Ev.leafCall "p"],
        WalkRes.fail (GoErr.wrap "http://h/var/albums/p" "200 OK"
          (GoErr.leaf (GoErr.msg
            ("Unknown content type "
              ++ getContentType "application/pdf; charset=x" ++ ":" ++ "p"))))) :=
  c8_top_level_leaf_error_surfaces _ "." "" "p" 0 0 false _ _
    (by decide) (by decide) (by decide)

end Pho

